import Mathlib

/-!
Verification of `meillionen/interface/module_interface.py`.

The module interface layer is embedded shallowly:

* Python dicts (which preserve insertion order and have unique keys) are
  embedded as ordered association lists `List (κ × β)`; assignment
  `d[k] = v` replaces the entry in place when the key is present and
  appends otherwise, exactly as a Python dict behaves.
* Exceptions are embedded as `Except MErr`; the callee's own failures are
  `MErr.calleeError` values so that pass-through of callee failures is
  observable.
* The flatbuffer codec (`base.py`, `class_interface.py`,
  `method_interface.py` and the generated `_ModuleInterface` module are
  external to the checked source) is modelled from the spec's binary
  layout contract: a buffer holds root records addressed by offset, each
  root record holds slot-indexed fields, and the classes vector sits at
  the fixed slot `CLASS_OFFSET = 4`.
-/

/-- Error taxonomy of the interface layer (spec section 7) plus Python's raw
`KeyError` (raised by bare dict indexing in `ModuleInterface.handle`) and an
opaque callee failure carrying a code. -/
inductive MErr where
  | classNotFound
  | methodNotFound
  | keyError
  | duplicateClassError
  | duplicateMethodError
  | malformedBufferError
  | malformedRecordError
  | calleeError (code : Nat)
deriving DecidableEq

/-- Lookup in an ordered association map: first entry with the key wins
(keys are unique in a Python dict, so the first entry is the only one). -/
def dictLookup {κ β : Type} [DecidableEq κ] (d : List (κ × β)) (k : κ) : Option β :=
  match d with
  | [] => none
  | (k2, v) :: rest => if k2 = k then some v else dictLookup rest k

/-- The keys of an association map, in order. -/
def dictKeys {κ β : Type} (d : List (κ × β)) : List κ :=
  d.map (fun p => p.1)

/-- Python dict assignment `d[k] = v`: replace in place when `k` is already a
key, append at the end otherwise. -/
def dictInsert {κ β : Type} [DecidableEq κ] (d : List (κ × β)) (k : κ) (v : β) :
    List (κ × β) :=
  match d with
  | [] => [(k, v)]
  | (k2, v2) :: rest => if k2 = k then (k, v) :: rest else (k2, v2) :: dictInsert rest k v

/-- The request value object (`method_request.py` is external to the checked
source; its shape is fixed by spec section 3): class name, method name and
opaque sink/source port bindings. -/
structure MethodRequest (Sk Sr : Type) where
  class_name : String
  method_name : String
  sinks : Sk
  sources : Sr

/-- A method surface unit (spec sections 3 and 4.1): a name plus an invocable
handle. The handle is the callable taking the sinks and sources bindings. -/
structure MethodInterface (Sk Sr R : Type) where
  name : String
  handle : Sk → Sr → Except MErr R

/-- A class surface (spec sections 3 and 4.2): a name plus an ordered mapping
from method name to `MethodInterface` (the `_methods` attribute in the
source). -/
structure ClassInterface (Sk Sr R : Type) where
  name : String
  methods : List (String × MethodInterface Sk Sr R)

/-- Modelled from the spec: `ClassInterface.get_method` lives in
`class_interface.py`, which is not part of the checked source. Spec section
4.2: `get_method(name) -> MethodInterface` fails with `MethodNotFound` when
absent. -/
def ClassInterface.get_method {Sk Sr R : Type} (c : ClassInterface Sk Sr R)
    (n : String) : Except MErr (MethodInterface Sk Sr R) :=
  match dictLookup c.methods n with
  | some m => Except.ok m
  | none => Except.error MErr.methodNotFound

/-- The root registry: an ordered mapping from class name to
`ClassInterface` (the `classes` attribute). -/
structure ModuleInterface (Sk Sr R : Type) where
  classes : List (String × ClassInterface Sk Sr R)

/-- The dict comprehension in `ModuleInterface.__init__`:
`{c.name: c for c in classes}` builds the mapping one assignment at a time,
so a later element with an already-seen name silently replaces the earlier
entry in place. -/
def dictComp {Sk Sr R : Type} (cs : List (ClassInterface Sk Sr R)) :
    List (String × ClassInterface Sk Sr R) :=
  cs.foldl (fun d c => dictInsert d c.name c) []

/-- The branch of `ModuleInterface.__init__` taken when the argument has no
`values` attribute (a plain sequence): normalize via the dict
comprehension. -/
def ModuleInterface.ofList {Sk Sr R : Type} (cs : List (ClassInterface Sk Sr R)) :
    ModuleInterface Sk Sr R :=
  ⟨dictComp cs⟩

/-- The branch of `ModuleInterface.__init__` taken when the argument has a
`values` attribute (an already-keyed mapping): the mapping is stored as
given, with no check. -/
def ModuleInterface.ofMap {Sk Sr R : Type} (d : List (String × ClassInterface Sk Sr R)) :
    ModuleInterface Sk Sr R :=
  ⟨d⟩

/-- `ModuleInterface.__call__` (dispatch): look the class up in `classes`,
turning the raw `KeyError` into `ClassNotFound`; resolve the method via
`get_method` (whose `MethodNotFound` propagates uncaught); invoke the
resolved method's handle with the request's sinks and sources and return
its result unchanged. -/
def ModuleInterface.call {Sk Sr R : Type} (m : ModuleInterface Sk Sr R)
    (req : MethodRequest Sk Sr) : Except MErr R :=
  match dictLookup m.classes req.class_name with
  | none => Except.error MErr.classNotFound
  | some klass =>
    match klass.get_method req.method_name with
    | Except.error e => Except.error e
    | Except.ok method => method.handle req.sinks req.sources

/-- `ModuleInterface.handle`: both lookups are bare dict indexing
(`self.classes[...]`, `klass._methods[...]`), so a miss at either level is a
raw `KeyError`; on a double hit the resolved method object is returned
without being invoked. -/
def ModuleInterface.handle {Sk Sr R : Type} (m : ModuleInterface Sk Sr R)
    (req : MethodRequest Sk Sr) : Except MErr (MethodInterface Sk Sr R) :=
  match dictLookup m.classes req.class_name with
  | none => Except.error MErr.keyError
  | some klass =>
    match dictLookup klass.methods req.method_name with
    | none => Except.error MErr.keyError
    | some method => Except.ok method

/-- The last element of `cs` whose `name` is `n`, if any: the entry a Python
dict comprehension keyed on `name` ends up holding for `n`. -/
def lastNamed {Sk Sr R : Type} (cs : List (ClassInterface Sk Sr R)) (n : String) :
    Option (ClassInterface Sk Sr R) :=
  match cs with
  | [] => none
  | c :: rest =>
    match lastNamed rest n with
    | some r => some r
    | none => if c.name = n then some c else none

/-- Modelled from the spec: the wire form of a method record (spec sections
4.1 and 6) carries a name field and a handle reference; the reference is
opaque to the wire contract and resolvable on the decoding side, so it is
embedded as the handle itself. -/
structure WireMethod (Sk Sr R : Type) where
  name : String
  handle : Sk → Sr → Except MErr R

/-- Modelled from the spec: the wire form of a ClassInterface record (spec
section 6): a name field and a vector of method records. -/
structure WireClass (Sk Sr R : Type) where
  name : String
  methods : List (WireMethod Sk Sr R)

/-- Modelled from the spec: a root record is a table of slot-indexed fields;
the only field of the module root is the classes vector at slot
`CLASS_OFFSET`. -/
structure WireRoot (Sk Sr R : Type) where
  fields : List (Nat × List (WireClass Sk Sr R))

/-- Modelled from the spec: a finished buffer, holding root records
addressed by offset. -/
structure WireBuffer (Sk Sr R : Type) where
  roots : List (WireRoot Sk Sr R)

/-- The fixed field slot of the classes vector (`_ModuleInterface.CLASS_OFFSET`
in the source). -/
def CLASS_OFFSET : Nat := 4

/-- Modelled from the spec: `FlatbufferMixin.get_root_as` lives in `base.py`,
which is not part of the checked source. It locates the root record at the
given offset and fails with `MalformedBufferError` when the root cannot be
located (spec sections 4.3 and 7). -/
def get_root_as {Sk Sr R : Type} (buf : WireBuffer Sk Sr R) (offset : Nat) :
    Except MErr (WireRoot Sk Sr R) :=
  match buf.roots[offset]? with
  | some r => Except.ok r
  | none => Except.error MErr.malformedBufferError

/-- Modelled from the spec: reading the classes vector field of the root
record at slot `CLASS_OFFSET` (the `Classes`/`ClassesLength` accessors of
`_ModuleInterface`); fails with `MalformedBufferError` when the required
field is missing (spec sections 4.3 and 7). -/
def WireRoot.classesVec {Sk Sr R : Type} (r : WireRoot Sk Sr R) :
    Except MErr (List (WireClass Sk Sr R)) :=
  match dictLookup r.fields CLASS_OFFSET with
  | some ws => Except.ok ws
  | none => Except.error MErr.malformedBufferError

/-- Modelled from the spec: encoding one method record (spec section 4.1)
writes its name field and its handle reference. -/
def MethodInterface.encode {Sk Sr R : Type} (m : MethodInterface Sk Sr R) :
    WireMethod Sk Sr R :=
  ⟨m.name, m.handle⟩

/-- Modelled from the spec: decoding one method record (spec section 4.1)
reads the name field and resolves the handle reference. -/
def MethodInterface.decode {Sk Sr R : Type} (w : WireMethod Sk Sr R) :
    MethodInterface Sk Sr R :=
  ⟨w.name, w.handle⟩

/-- Modelled from the spec: encoding a ClassInterface (spec section 4.2)
writes its name field and the vector built from the values of its `methods`
mapping, in insertion order. -/
def ClassInterface.encode {Sk Sr R : Type} (c : ClassInterface Sk Sr R) :
    WireClass Sk Sr R :=
  ⟨c.name, c.methods.map (fun p => p.2.encode)⟩

/-- Build the keyed mapping from a list of (name, value) pairs, failing with
the given error as soon as a name is already present; order is preserved and
nothing is ever overwritten. Modelled from the spec (sections 4.2, 4.3 and
7): the decoding side of `base.py` enforces uniqueness. -/
def buildDictAux {β : Type} (e : MErr) (acc : List (String × β)) :
    List (String × β) → Except MErr (List (String × β))
  | [] => Except.ok acc
  | (k, v) :: rest =>
    match dictLookup acc k with
    | some _ => Except.error e
    | none => buildDictAux e (acc ++ [(k, v)]) rest

/-- Build the keyed mapping from scratch (see `buildDictAux`). -/
def buildDict {β : Type} (e : MErr) (ps : List (String × β)) :
    Except MErr (List (String × β)) :=
  buildDictAux e [] ps

/-- Map a fallible decoder over a vector, stopping at the first failure. -/
def mapExcept {α β : Type} (f : α → Except MErr β) : List α → Except MErr (List β)
  | [] => Except.ok []
  | x :: xs =>
    match f x with
    | Except.error e => Except.error e
    | Except.ok y =>
      match mapExcept f xs with
      | Except.error e => Except.error e
      | Except.ok ys => Except.ok (y :: ys)

/-- Modelled from the spec: `ClassInterface.from_interface` lives in
`class_interface.py`, which is not part of the checked source. Spec section
4.2: decode the name and the vector of method records, constructing one
MethodInterface per element and building the name-to-MethodInterface
mapping; fails with `DuplicateMethodError` when two decoded methods share a
name. -/
def ClassInterface.from_interface {Sk Sr R : Type} (w : WireClass Sk Sr R) :
    Except MErr (ClassInterface Sk Sr R) :=
  match buildDict MErr.duplicateMethodError
      (w.methods.map (fun wm => (wm.name, MethodInterface.decode wm))) with
  | Except.error e => Except.error e
  | Except.ok d => Except.ok ⟨w.name, d⟩

/-- Modelled from the spec: `serialize_dict` lives in `base.py`, which is not
part of the checked source. It writes the vector built from the values of
the mapping, in insertion order (spec sections 4.2 and 4.3). -/
def serialize_dict {Sk Sr R : Type} (xs : List (String × ClassInterface Sk Sr R)) :
    List (WireClass Sk Sr R) :=
  xs.map (fun p => p.2.encode)

/-- `ModuleInterface.serialize`: write the class vector via `serialize_dict`,
then start the root record, add the classes field at slot `CLASS_OFFSET` and
finish it, the finished buffer exposing the root at offset 0. -/
def ModuleInterface.serialize {Sk Sr R : Type} (m : ModuleInterface Sk Sr R) :
    WireBuffer Sk Sr R :=
  ⟨[⟨[(CLASS_OFFSET, serialize_dict m.classes)]⟩]⟩

/-- Modelled from the spec: `deserialize_to_dict` lives in `base.py`, which
is not part of the checked source. It constructs one ClassInterface per
vector element (via the constructor/getter pair the source hands it) and
builds the name-keyed mapping, failing with `DuplicateClassError` on a name
collision (spec section 4.3). -/
def deserialize_to_dict {Sk Sr R : Type} (ws : List (WireClass Sk Sr R)) :
    Except MErr (List (String × ClassInterface Sk Sr R)) :=
  match mapExcept ClassInterface.from_interface ws with
  | Except.error e => Except.error e
  | Except.ok cs => buildDict MErr.duplicateClassError (cs.map (fun c => (c.name, c)))

/-- `ModuleInterface.deserialize`: locate the root record at offset 0, read
the classes vector, build the keyed mapping via `deserialize_to_dict` and
hand it to the constructor (which, receiving a mapping, stores it as
given). -/
def ModuleInterface.deserialize {Sk Sr R : Type} (buf : WireBuffer Sk Sr R) :
    Except MErr (ModuleInterface Sk Sr R) :=
  match get_root_as buf 0 with
  | Except.error e => Except.error e
  | Except.ok root =>
    match root.classesVec with
    | Except.error e => Except.error e
    | Except.ok ws =>
      match deserialize_to_dict ws with
      | Except.error e => Except.error e
      | Except.ok classes => Except.ok (ModuleInterface.ofMap classes)

/-- Validity of a registry (the spec's invariants, sections 3 and 8): every
key equals the name of its value, class names are unique, and within every
class every method key equals the method's name and method names are
unique. -/
def ModuleInterface.valid {Sk Sr R : Type} (m : ModuleInterface Sk Sr R) : Prop :=
  (∀ p ∈ m.classes, p.1 = p.2.name) ∧
  (dictKeys m.classes).Nodup ∧
  (∀ p ∈ m.classes, (∀ q ∈ p.2.methods, q.1 = q.2.name) ∧ (dictKeys p.2.methods).Nodup)

/-- State-passing embedding of `ModuleInterface.__call__`: the body of the
source method only ever reads `self.classes` and never assigns any
attribute, so each branch returns the instance state unchanged alongside
the result. -/
def ModuleInterface.callS {Sk Sr R : Type} (m : ModuleInterface Sk Sr R)
    (req : MethodRequest Sk Sr) : Except MErr R × ModuleInterface Sk Sr R :=
  match dictLookup m.classes req.class_name with
  | none => (Except.error MErr.classNotFound, m)
  | some klass =>
    match klass.get_method req.method_name with
    | Except.error e => (Except.error e, m)
    | Except.ok method => (method.handle req.sinks req.sources, m)

/-- State-passing embedding of `ModuleInterface.serialize`: the body only
reads `self.classes` (handing it to `serialize_dict`) and never assigns any
attribute, so it returns the instance state unchanged alongside the
buffer. -/
def ModuleInterface.serializeS {Sk Sr R : Type} (m : ModuleInterface Sk Sr R) :
    WireBuffer Sk Sr R × ModuleInterface Sk Sr R :=
  let class_off := serialize_dict m.classes
  (⟨[⟨[(CLASS_OFFSET, class_off)]⟩]⟩, m)

theorem dictKeys_nil {κ β : Type} : dictKeys ([] : List (κ × β)) = [] := rfl

theorem dictKeys_cons {κ β : Type} (p : κ × β) (tl : List (κ × β)) :
    dictKeys (p :: tl) = p.1 :: dictKeys tl := rfl

theorem dictKeys_append {κ β : Type} (d1 d2 : List (κ × β)) :
    dictKeys (d1 ++ d2) = dictKeys d1 ++ dictKeys d2 :=
  List.map_append _ d1 d2

theorem dictLookup_eq_none_iff {κ β : Type} [DecidableEq κ] (d : List (κ × β)) (k : κ) :
    dictLookup d k = none ↔ k ∉ dictKeys d := by
  induction d with
  | nil => simp [dictLookup, dictKeys_nil]
  | cons hd tl ih =>
    obtain ⟨k2, v⟩ := hd
    by_cases h : k2 = k
    · subst h
      simp [dictLookup, dictKeys_cons]
    · simp [dictLookup, dictKeys_cons, h, ih, Ne.symm h]

theorem dictLookup_append {κ β : Type} [DecidableEq κ] (d1 d2 : List (κ × β)) (k : κ) :
    dictLookup (d1 ++ d2) k =
      match dictLookup d1 k with
      | some v => some v
      | none => dictLookup d2 k := by
  induction d1 with
  | nil => simp [dictLookup]
  | cons hd tl ih =>
    obtain ⟨k2, v⟩ := hd
    by_cases h : k2 = k <;> simp [dictLookup, h, ih]

theorem dictLookup_insert {κ β : Type} [DecidableEq κ] (d : List (κ × β)) (k : κ)
    (v : β) (n : κ) :
    dictLookup (dictInsert d k v) n = if k = n then some v else dictLookup d n := by
  induction d with
  | nil => simp [dictInsert, dictLookup]
  | cons hd tl ih =>
    obtain ⟨k2, v2⟩ := hd
    by_cases h : k2 = k
    · subst h
      by_cases h2 : k2 = n <;> simp [dictInsert, dictLookup, h2]
    · by_cases h2 : k2 = n
      · subst h2
        have hkn : ¬k = k2 := fun hh => h hh.symm
        simp [dictInsert, dictLookup, h, hkn]
      · simp [dictInsert, dictLookup, h, h2, ih]

theorem mem_dictKeys_insert {κ β : Type} [DecidableEq κ] (d : List (κ × β)) (k : κ)
    (v : β) (n : κ) :
    n ∈ dictKeys (dictInsert d k v) ↔ n ∈ dictKeys d ∨ n = k := by
  induction d with
  | nil => simp [dictInsert, dictKeys_nil, dictKeys_cons]
  | cons hd tl ih =>
    obtain ⟨k2, v2⟩ := hd
    by_cases h : k2 = k
    · subst h
      simp [dictInsert, dictKeys_cons]
      tauto
    · simp [dictInsert, dictKeys_cons, h, ih]
      tauto

theorem nodup_dictKeys_insert {κ β : Type} [DecidableEq κ] (d : List (κ × β)) (k : κ)
    (v : β) (h : (dictKeys d).Nodup) : (dictKeys (dictInsert d k v)).Nodup := by
  induction d with
  | nil => simp [dictInsert, dictKeys_cons, dictKeys_nil]
  | cons hd tl ih =>
    obtain ⟨k2, v2⟩ := hd
    rw [dictKeys_cons, List.nodup_cons] at h
    by_cases hk : k2 = k
    · subst hk
      simpa [dictInsert, dictKeys_cons, List.nodup_cons] using h
    · rw [dictInsert]
      simp only [hk, if_false, dictKeys_cons, List.nodup_cons]
      refine ⟨?_, ih h.2⟩
      intro hmem
      rcases (mem_dictKeys_insert tl k v k2).mp hmem with h2 | h2
      · exact h.1 h2
      · exact hk h2

theorem allP_dictInsert {κ β : Type} [DecidableEq κ] (P : κ × β → Prop)
    (d : List (κ × β)) (k : κ) (v : β)
    (hd : ∀ p ∈ d, P p) (hkv : P (k, v)) : ∀ p ∈ dictInsert d k v, P p := by
  induction d with
  | nil =>
    intro p hp
    simp [dictInsert] at hp
    subst hp
    exact hkv
  | cons hd2 tl ih =>
    obtain ⟨k2, v2⟩ := hd2
    have htl : ∀ p ∈ tl, P p := fun p hp => hd p (List.mem_cons_of_mem _ hp)
    have hhd : P (k2, v2) := hd (k2, v2) (List.mem_cons_self _ _)
    by_cases h : k2 = k
    · subst h
      intro p hp
      rw [dictInsert] at hp
      simp only [if_pos rfl] at hp
      rcases List.mem_cons.mp hp with h2 | h2
      · subst h2; exact hkv
      · exact htl p h2
    · intro p hp
      rw [dictInsert] at hp
      simp only [h, if_false] at hp
      rcases List.mem_cons.mp hp with h2 | h2
      · subst h2; exact hhd
      · exact ih htl p h2

theorem dictComp_lookup_aux {Sk Sr R : Type} (cs : List (ClassInterface Sk Sr R)) :
    ∀ (d : List (String × ClassInterface Sk Sr R)) (n : String),
      dictLookup (cs.foldl (fun a c => dictInsert a c.name c) d) n =
        match lastNamed cs n with
        | some r => some r
        | none => dictLookup d n := by
  induction cs with
  | nil => intro d n; simp [lastNamed]
  | cons c rest ih =>
    intro d n
    rw [List.foldl_cons, ih, lastNamed]
    cases h : lastNamed rest n with
    | some r => simp
    | none =>
      simp only [dictLookup_insert]
      by_cases h2 : c.name = n <;> simp [h2]

/-- Entry the dict comprehension ends up holding for name `n`: the last
element of `cs` named `n`. -/
theorem dictComp_lookup {Sk Sr R : Type} (cs : List (ClassInterface Sk Sr R))
    (n : String) : dictLookup (dictComp cs) n = lastNamed cs n := by
  rw [dictComp, dictComp_lookup_aux]
  cases lastNamed cs n <;> simp [dictLookup]

theorem dictComp_nodup_aux {Sk Sr R : Type} (cs : List (ClassInterface Sk Sr R)) :
    ∀ d : List (String × ClassInterface Sk Sr R), (dictKeys d).Nodup →
      (dictKeys (cs.foldl (fun a c => dictInsert a c.name c) d)).Nodup := by
  induction cs with
  | nil => intro d hd; simpa
  | cons c rest ih =>
    intro d hd
    rw [List.foldl_cons]
    exact ih _ (nodup_dictKeys_insert d c.name c hd)

theorem dictComp_nodup {Sk Sr R : Type} (cs : List (ClassInterface Sk Sr R)) :
    (dictKeys (dictComp cs)).Nodup :=
  dictComp_nodup_aux cs [] (by simp [dictKeys_nil])

theorem dictComp_keyed_aux {Sk Sr R : Type} (cs : List (ClassInterface Sk Sr R)) :
    ∀ d : List (String × ClassInterface Sk Sr R), (∀ p ∈ d, p.1 = p.2.name) →
      ∀ p ∈ cs.foldl (fun a c => dictInsert a c.name c) d, p.1 = p.2.name := by
  induction cs with
  | nil =>
    intro d hd
    rw [List.foldl_nil]
    exact hd
  | cons c rest ih =>
    intro d hd
    rw [List.foldl_cons]
    exact ih _ (allP_dictInsert _ d c.name c hd rfl)

theorem dictComp_keyed {Sk Sr R : Type} (cs : List (ClassInterface Sk Sr R)) :
    ∀ p ∈ dictComp cs, p.1 = p.2.name :=
  dictComp_keyed_aux cs [] (by simp)

theorem buildDictAux_ok_of_nodup {β : Type} (e : MErr) :
    ∀ (ps acc : List (String × β)), (dictKeys ps).Nodup →
      (∀ k ∈ dictKeys ps, dictLookup acc k = none) →
      buildDictAux e acc ps = Except.ok (acc ++ ps) := by
  intro ps
  induction ps with
  | nil => intro acc _ _; simp [buildDictAux]
  | cons hd tl ih =>
    intro acc hnd hacc
    obtain ⟨k, v⟩ := hd
    rw [dictKeys_cons, List.nodup_cons] at hnd
    rw [buildDictAux, hacc k (by rw [dictKeys_cons]; exact List.mem_cons_self _ _)]
    rw [ih (acc ++ [(k, v)]) hnd.2 ?_]
    · rw [List.append_assoc, List.singleton_append]
    · intro k2 hk2
      rw [dictLookup_append]
      rw [hacc k2 (by rw [dictKeys_cons]; exact List.mem_cons_of_mem _ hk2)]
      have hne : ¬k = k2 := fun hh => hnd.1 (hh ▸ hk2)
      simp [dictLookup, hne]

theorem buildDict_ok_of_nodup {β : Type} (e : MErr) (ps : List (String × β))
    (h : (dictKeys ps).Nodup) : buildDict e ps = Except.ok ps := by
  rw [buildDict, buildDictAux_ok_of_nodup e ps [] h (fun k _ => rfl)]
  rw [List.nil_append]

theorem buildDictAux_ok_inv {β : Type} (e : MErr) :
    ∀ (ps acc d : List (String × β)), (dictKeys acc).Nodup →
      buildDictAux e acc ps = Except.ok d →
      d = acc ++ ps ∧ (dictKeys d).Nodup := by
  intro ps
  induction ps with
  | nil =>
    intro acc d hacc h
    rw [buildDictAux] at h
    cases h
    exact ⟨(List.append_nil _).symm, hacc⟩
  | cons hd tl ih =>
    intro acc d hacc h
    obtain ⟨k, v⟩ := hd
    rw [buildDictAux] at h
    cases hl : dictLookup acc k with
    | some w => rw [hl] at h; cases h
    | none =>
      rw [hl] at h
      have hknotin : k ∉ dictKeys acc := (dictLookup_eq_none_iff acc k).mp hl
      have hacc2 : (dictKeys (acc ++ [(k, v)])).Nodup := by
        rw [dictKeys_append]
        simp [List.nodup_append, dictKeys_cons, dictKeys_nil, hacc, hknotin]
      obtain ⟨h1, h2⟩ := ih (acc ++ [(k, v)]) d hacc2 h
      refine ⟨?_, h2⟩
      rw [h1, List.append_assoc, List.singleton_append]

theorem buildDict_ok_inv {β : Type} (e : MErr) (ps d : List (String × β))
    (h : buildDict e ps = Except.ok d) : d = ps ∧ (dictKeys d).Nodup := by
  obtain ⟨h1, h2⟩ := buildDictAux_ok_inv e ps [] d (by simp [dictKeys_nil]) h
  exact ⟨by rw [h1, List.nil_append], h2⟩

theorem mapExcept_map_ok {α α2 β : Type} (f : α2 → Except MErr β) (enc : α → α2)
    (g : α → β) :
    ∀ l : List α, (∀ x ∈ l, f (enc x) = Except.ok (g x)) →
      mapExcept f (l.map enc) = Except.ok (l.map g) := by
  intro l
  induction l with
  | nil => intro _; simp [mapExcept]
  | cons hd tl ih =>
    intro h
    rw [List.map_cons, mapExcept, h hd (List.mem_cons_self _ _),
      ih (fun x hx => h x (List.mem_cons_of_mem _ hx)), List.map_cons]

/-- C2: when the class name resolves in the registry and the method name
resolves on that class, dispatch (`ModuleInterface.__call__`) invokes the
resolved method's handle with the request's sinks and sources and returns
the handle's result unchanged — in particular any failure produced by the
handle is the result of dispatch, unmodified. -/
theorem c2_dispatch_pass_through {Sk Sr R : Type} (m : ModuleInterface Sk Sr R)
    (req : MethodRequest Sk Sr) (klass : ClassInterface Sk Sr R)
    (meth : MethodInterface Sk Sr R)
    (hc : dictLookup m.classes req.class_name = some klass)
    (hm : klass.get_method req.method_name = Except.ok meth) :
    m.call req = meth.handle req.sinks req.sources := by
  simp only [ModuleInterface.call, hc, hm]

/-- C4: when the class name is absent from the registry, dispatch
(`ModuleInterface.__call__`) fails with `ClassNotFound`; the result is fixed
before any method is resolved, so no handle is invoked. -/
theorem c4_class_miss {Sk Sr R : Type} (m : ModuleInterface Sk Sr R)
    (req : MethodRequest Sk Sr)
    (hc : dictLookup m.classes req.class_name = none) :
    m.call req = Except.error MErr.classNotFound := by
  simp only [ModuleInterface.call, hc]

/-- C5: when the class resolves but the method name is absent from it,
dispatch (`ModuleInterface.__call__`) fails with `MethodNotFound` (raised by
`get_method` and propagated uncaught); no handle is invoked. -/
theorem c5_method_miss {Sk Sr R : Type} (m : ModuleInterface Sk Sr R)
    (req : MethodRequest Sk Sr) (klass : ClassInterface Sk Sr R)
    (hc : dictLookup m.classes req.class_name = some klass)
    (hm : dictLookup klass.methods req.method_name = none) :
    m.call req = Except.error MErr.methodNotFound := by
  simp only [ModuleInterface.call, ClassInterface.get_method, hc, hm]

/-- C9: once built, a registry is never mutated: in the state-passing
embeddings of `__call__` and `serialize` (which record every attribute
access of the source bodies) the instance handed back is the instance
passed in, with the same `classes` mapping, and the results agree with the
pure functions. -/
theorem c9_no_mutation {Sk Sr R : Type} (m : ModuleInterface Sk Sr R)
    (req : MethodRequest Sk Sr) :
    (m.callS req).2 = m ∧ (m.callS req).1 = m.call req ∧
    m.serializeS.2 = m ∧ m.serializeS.1 = m.serialize := by
  refine ⟨?_, ?_, rfl, rfl⟩
  · cases hc : dictLookup m.classes req.class_name with
    | none => simp only [ModuleInterface.callS, hc]
    | some klass =>
      cases hm : klass.get_method req.method_name with
      | error e => simp only [ModuleInterface.callS, hc, hm]
      | ok meth => simp only [ModuleInterface.callS, hc, hm]
  · cases hc : dictLookup m.classes req.class_name with
    | none => simp only [ModuleInterface.callS, ModuleInterface.call, hc]
    | some klass =>
      cases hm : klass.get_method req.method_name with
      | error e => simp only [ModuleInterface.callS, ModuleInterface.call, hc, hm]
      | ok meth => simp only [ModuleInterface.callS, ModuleInterface.call, hc, hm]

/-- C10: `ModuleInterface.handle` resolves the same (class name, method
name) pair as dispatch but returns the resolved method object without
invoking it, and a miss at either level is a raw `KeyError`, not
`ClassNotFound` or `MethodNotFound`. -/
theorem c10_handle_resolves_without_invoking {Sk Sr R : Type}
    (m : ModuleInterface Sk Sr R) (req : MethodRequest Sk Sr) :
    (dictLookup m.classes req.class_name = none →
      m.handle req = Except.error MErr.keyError) ∧
    (∀ klass, dictLookup m.classes req.class_name = some klass →
      (dictLookup klass.methods req.method_name = none →
        m.handle req = Except.error MErr.keyError) ∧
      (∀ meth, dictLookup klass.methods req.method_name = some meth →
        m.handle req = Except.ok meth ∧
        klass.get_method req.method_name = Except.ok meth)) := by
  refine ⟨fun hc => ?_, fun klass hc => ⟨fun hm => ?_, fun meth hm => ⟨?_, ?_⟩⟩⟩
  · simp only [ModuleInterface.handle, hc]
  · simp only [ModuleInterface.handle, hc, hm]
  · simp only [ModuleInterface.handle, hc, hm]
  · simp only [ClassInterface.get_method, hm]

/-- Port bindings used by the concrete witnesses: named natural-number
ports. -/
abbrev Ports := List (String × Nat)

/-- A concrete method: computes an area from the `radius` source port. -/
def areaMethod : MethodInterface Ports Ports Nat :=
  ⟨"area", fun _ sources =>
    match dictLookup sources "radius" with
    | some r => Except.ok (r * r * 3)
    | none => Except.error (MErr.calleeError 1)⟩

/-- A concrete class exposing the single method `area`. -/
def shapeClass : ClassInterface Ports Ports Nat :=
  ⟨"Shape", [("area", areaMethod)]⟩

/-- A concrete registry containing the class `Shape`. -/
def shapeRegistry : ModuleInterface Ports Ports Nat :=
  ModuleInterface.ofList [shapeClass]

/-- The request of the spec's dispatch-success example. -/
def areaRequest : MethodRequest Ports Ports :=
  ⟨"Shape", "area", [], [("radius", 5)]⟩

/-- A request whose class name is absent from `shapeRegistry`. -/
def missingRequest : MethodRequest Ports Ports :=
  ⟨"Missing", "x", [], []⟩

/-- A request whose class resolves but whose method name is absent. -/
def perimeterRequest : MethodRequest Ports Ports :=
  ⟨"Shape", "perimeter", [], []⟩

/-- Witness for C2 at the spec's own example. -/
theorem c2_witness :
    shapeRegistry.call areaRequest = areaMethod.handle [] [("radius", 5)] :=
  c2_dispatch_pass_through shapeRegistry areaRequest shapeClass areaMethod rfl rfl

/-- Witness for C4 at the spec's own example. -/
theorem c4_witness :
    shapeRegistry.call missingRequest = Except.error MErr.classNotFound :=
  c4_class_miss shapeRegistry missingRequest rfl

/-- Witness for C5 at the spec's own example. -/
theorem c5_witness :
    shapeRegistry.call perimeterRequest = Except.error MErr.methodNotFound :=
  c5_method_miss shapeRegistry perimeterRequest shapeClass rfl rfl

/-- Witness for C10: raw `KeyError` on either miss, the resolved method
returned uninvoked on a double hit. -/
theorem c10_witness :
    shapeRegistry.handle missingRequest = Except.error MErr.keyError ∧
    shapeRegistry.handle perimeterRequest = Except.error MErr.keyError ∧
    shapeRegistry.handle areaRequest = Except.ok areaMethod :=
  ⟨(c10_handle_resolves_without_invoking shapeRegistry missingRequest).1 rfl,
   ((c10_handle_resolves_without_invoking shapeRegistry perimeterRequest).2
     shapeClass rfl).1 rfl,
   (((c10_handle_resolves_without_invoking shapeRegistry areaRequest).2
     shapeClass rfl).2 areaMethod rfl).1⟩

/-- A class named `Foo` with the single method `a`. -/
def fooFirst : ClassInterface Unit Unit Nat :=
  ⟨"Foo", [("a", ⟨"a", fun _ _ => Except.ok 1⟩)]⟩

/-- A second class also named `Foo`, with the single method `b`. -/
def fooSecond : ClassInterface Unit Unit Nat :=
  ⟨"Foo", [("b", ⟨"b", fun _ _ => Except.ok 2⟩)]⟩

/-- C3 counterexample: constructing a ModuleInterface from the plain
sequence `[fooFirst, fooSecond]`, whose two elements share the name `Foo`,
does not fail at all — the dict comprehension of `__init__` silently keeps
the later element (its surviving method set is `fooSecond`'s, not
`fooFirst`'s), so the earlier entry is silently overwritten and no
`DuplicateClassError` is raised. -/
theorem c3_counterexample :
    (ModuleInterface.ofList [fooFirst, fooSecond]).classes = [("Foo", fooSecond)] ∧
    dictKeys fooFirst.methods ≠ dictKeys fooSecond.methods :=
  ⟨rfl, by decide⟩

/-- C3 (amended): constructing a ModuleInterface from a plain sequence never
fails; the normalized mapping binds each name to the last element of the
sequence carrying that name (later duplicates silently overwrite earlier
ones, keeping the earlier position), and its keys are duplicate-free. -/
theorem c3_last_duplicate_wins {Sk Sr R : Type}
    (cs : List (ClassInterface Sk Sr R)) (n : String) :
    dictLookup (ModuleInterface.ofList cs).classes n = lastNamed cs n ∧
    (dictKeys (ModuleInterface.ofList cs).classes).Nodup :=
  ⟨dictComp_lookup cs n, dictComp_nodup cs⟩

/-- C6: deserializing fails with `MalformedBufferError` whenever the root
record cannot be located at offset 0 (in particular for the empty buffer)
or the required classes field is missing from the root record; the failure
is the whole result of `deserialize`, so no partially populated registry is
ever handed to the caller. -/
theorem c6_malformed_buffer {Sk Sr R : Type} :
    (∀ buf : WireBuffer Sk Sr R, buf.roots = [] →
      ModuleInterface.deserialize buf = Except.error MErr.malformedBufferError) ∧
    (∀ (r : WireRoot Sk Sr R) (rest : List (WireRoot Sk Sr R)),
      dictLookup r.fields CLASS_OFFSET = none →
      ModuleInterface.deserialize ⟨r :: rest⟩ = Except.error MErr.malformedBufferError) := by
  constructor
  · intro buf h
    obtain ⟨roots⟩ := buf
    simp only at h
    subst h
    rfl
  · intro r rest h
    simp only [ModuleInterface.deserialize, get_root_as, List.getElem?_cons_zero,
      WireRoot.classesVec, h]

/-- Witness for C6: the empty buffer, and a buffer whose root record has no
classes field. -/
theorem c6_witness :
    ModuleInterface.deserialize (⟨[]⟩ : WireBuffer Unit Unit Nat) =
      Except.error MErr.malformedBufferError ∧
    ModuleInterface.deserialize (⟨[⟨[]⟩]⟩ : WireBuffer Unit Unit Nat) =
      Except.error MErr.malformedBufferError :=
  ⟨(@c6_malformed_buffer Unit Unit Nat).1 ⟨[]⟩ rfl,
   (@c6_malformed_buffer Unit Unit Nat).2 ⟨[]⟩ [] rfl⟩

theorem deserialize_to_dict_inv {Sk Sr R : Type} (ws : List (WireClass Sk Sr R))
    (d : List (String × ClassInterface Sk Sr R))
    (h : deserialize_to_dict ws = Except.ok d) :
    (∀ p ∈ d, p.1 = p.2.name) ∧ (dictKeys d).Nodup := by
  simp only [deserialize_to_dict] at h
  cases hmap : mapExcept ClassInterface.from_interface ws with
  | error e => rw [hmap] at h; exact Except.noConfusion h
  | ok cs =>
    simp only [hmap] at h
    obtain ⟨h1, h2⟩ := buildDict_ok_inv MErr.duplicateClassError _ d h
    subst h1
    refine ⟨?_, h2⟩
    intro p hp
    obtain ⟨c, _, rfl⟩ := List.mem_map.mp hp
    rfl

/-- A class whose name `Y` disagrees with the key `X` it will be filed
under. -/
def mislabeledClass : ClassInterface Unit Unit Nat := ⟨"Y", []⟩

/-- C7 counterexample: the keyed-mapping constructor path stores the given
mapping verbatim without any check, so a ModuleInterface whose key `X`
differs from the name `Y` of the class it maps to is constructible — the
key/name invariant does not hold for every instance built through the
constructor. -/
theorem c7_counterexample :
    (ModuleInterface.ofMap [("X", mislabeledClass)]).classes =
      [("X", mislabeledClass)] ∧
    mislabeledClass.name = "Y" ∧ ("X" : String) ≠ "Y" :=
  ⟨rfl, rfl, by decide⟩

/-- C7 (amended): the plain-sequence constructor path and `deserialize`
both establish the invariant — every key of `classes` equals the name of
the `ClassInterface` it maps to and the keys are duplicate-free — while
the keyed-mapping constructor path stores the caller's mapping verbatim
with no check, so there the invariant holds only if the caller's mapping
already satisfies it. -/
theorem c7_key_name_invariant {Sk Sr R : Type} :
    (∀ cs : List (ClassInterface Sk Sr R),
      (∀ p ∈ (ModuleInterface.ofList cs).classes, p.1 = p.2.name) ∧
      (dictKeys (ModuleInterface.ofList cs).classes).Nodup) ∧
    (∀ (buf : WireBuffer Sk Sr R) (m : ModuleInterface Sk Sr R),
      ModuleInterface.deserialize buf = Except.ok m →
      (∀ p ∈ m.classes, p.1 = p.2.name) ∧ (dictKeys m.classes).Nodup) ∧
    (∀ d : List (String × ClassInterface Sk Sr R),
      (ModuleInterface.ofMap d).classes = d) := by
  refine ⟨fun cs => ⟨dictComp_keyed cs, dictComp_nodup cs⟩, ?_, fun d => rfl⟩
  intro buf m h
  simp only [ModuleInterface.deserialize] at h
  cases hroot : get_root_as buf 0 with
  | error e => rw [hroot] at h; exact Except.noConfusion h
  | ok root =>
    simp only [hroot] at h
    cases hvec : root.classesVec with
    | error e => rw [hvec] at h; exact Except.noConfusion h
    | ok ws =>
      simp only [hvec] at h
      cases hdict : deserialize_to_dict ws with
      | error e => rw [hdict] at h; exact Except.noConfusion h
      | ok classes =>
        simp only [hdict] at h
        injection h with h
        subst h
        exact deserialize_to_dict_inv ws classes hdict

/-- A concrete wire class record named `Demo` with no methods. -/
def demoWireClass : WireClass Unit Unit Nat := ⟨"Demo", []⟩

/-- A concrete buffer whose root record carries the one-element classes
vector at slot `CLASS_OFFSET`. -/
def demoBuffer : WireBuffer Unit Unit Nat :=
  ⟨[⟨[(CLASS_OFFSET, [demoWireClass])]⟩]⟩

/-- The registry `demoBuffer` decodes to. -/
def demoModule : ModuleInterface Unit Unit Nat :=
  ModuleInterface.ofMap [("Demo", ⟨"Demo", []⟩)]

/-- Witness for C7 at concrete inputs: the sequence path and a successful
decode both satisfy the invariant, and the mapping path is verbatim. -/
theorem c7_witness :
    ((∀ p ∈ (ModuleInterface.ofList [mislabeledClass]).classes, p.1 = p.2.name) ∧
      (dictKeys (ModuleInterface.ofList [mislabeledClass]).classes).Nodup) ∧
    ((∀ p ∈ demoModule.classes, p.1 = p.2.name) ∧ (dictKeys demoModule.classes).Nodup) ∧
    (ModuleInterface.ofMap [("X", mislabeledClass)]).classes = [("X", mislabeledClass)] :=
  ⟨(@c7_key_name_invariant Unit Unit Nat).1 [mislabeledClass],
   (@c7_key_name_invariant Unit Unit Nat).2.1 demoBuffer demoModule rfl,
   (@c7_key_name_invariant Unit Unit Nat).2.2 [("X", mislabeledClass)]⟩

/-- C8: `deserialize` locates the root record at offset 0 of the buffer
(subsequent records are irrelevant), reads the classes vector from the
field slot fixed at `CLASS_OFFSET = 4`, constructs one ClassInterface per
vector element (via `ClassInterface.from_interface`) and hands the
name-keyed mapping built from them to the constructor. -/
theorem c8_root_layout {Sk Sr R : Type} :
    CLASS_OFFSET = 4 ∧
    ∀ (r : WireRoot Sk Sr R) (rest : List (WireRoot Sk Sr R))
      (ws : List (WireClass Sk Sr R)) (cs : List (ClassInterface Sk Sr R)),
      dictLookup r.fields CLASS_OFFSET = some ws →
      mapExcept ClassInterface.from_interface ws = Except.ok cs →
      (dictKeys (cs.map (fun c => (c.name, c)))).Nodup →
      ModuleInterface.deserialize ⟨r :: rest⟩ =
        Except.ok (ModuleInterface.ofMap (cs.map (fun c => (c.name, c)))) := by
  refine ⟨rfl, ?_⟩
  intro r rest ws cs hf hm hn
  simp only [ModuleInterface.deserialize, get_root_as, List.getElem?_cons_zero,
    WireRoot.classesVec, hf, deserialize_to_dict, hm,
    buildDict_ok_of_nodup MErr.duplicateClassError _ hn]

/-- A concrete one-class wire vector for the C8 witness. -/
def wireShapeClass : WireClass Unit Unit Nat := ⟨"Shape", []⟩

/-- A root record holding the one-element classes vector at slot 4. -/
def shapeRoot : WireRoot Unit Unit Nat := ⟨[(4, [wireShapeClass])]⟩

/-- Witness for C8 at a concrete buffer. -/
theorem c8_witness :
    CLASS_OFFSET = 4 ∧
    ModuleInterface.deserialize (⟨[shapeRoot]⟩ : WireBuffer Unit Unit Nat) =
      Except.ok (ModuleInterface.ofMap
        (([⟨"Shape", []⟩] : List (ClassInterface Unit Unit Nat)).map
          (fun c => (c.name, c)))) :=
  ⟨(@c8_root_layout Unit Unit Nat).1,
   (@c8_root_layout Unit Unit Nat).2 shapeRoot [] [wireShapeClass] [⟨"Shape", []⟩]
     rfl rfl (by decide)⟩

theorem from_interface_encode {Sk Sr R : Type} (c : ClassInterface Sk Sr R)
    (h1 : ∀ q ∈ c.methods, q.1 = q.2.name)
    (h2 : (dictKeys c.methods).Nodup) :
    ClassInterface.from_interface (ClassInterface.encode c) = Except.ok c := by
  have hpairs :
      (ClassInterface.encode c).methods.map
        (fun wm => (wm.name, MethodInterface.decode wm)) = c.methods := by
    simp only [ClassInterface.encode, List.map_map]
    have hpt : ∀ q ∈ c.methods,
        ((fun wm => (wm.name, MethodInterface.decode wm)) ∘ (fun p => p.2.encode)) q
          = id q := by
      intro q hq
      obtain ⟨qk, qv⟩ := q
      have hqn : qk = qv.name := h1 (qk, qv) hq
      subst hqn
      rfl
    rw [List.map_congr_left hpt, List.map_id]
  simp only [ClassInterface.from_interface, hpairs, buildDict_ok_of_nodup _ _ h2]
  rfl

/-- C1: round trip. For every valid registry (every key equals its value's
name, class names unique, method keys equal to method names and unique
within each class), deserializing the buffer produced by `serialize` yields
the registry back — in particular the `classes` mapping has the same keys,
the same nested method names, in the same order. -/
theorem c1_round_trip {Sk Sr R : Type} (m : ModuleInterface Sk Sr R)
    (hv : m.valid) :
    ModuleInterface.deserialize (ModuleInterface.serialize m) = Except.ok m := by
  obtain ⟨h1, h2, h3⟩ := hv
  have hmap : mapExcept ClassInterface.from_interface (serialize_dict m.classes) =
      Except.ok (m.classes.map (fun p => p.2)) := by
    rw [serialize_dict]
    exact mapExcept_map_ok _ _ _ m.classes
      (fun p hp => from_interface_encode p.2 (h3 p hp).1 (h3 p hp).2)
  have hpairs : (m.classes.map (fun p => p.2)).map (fun c => (c.name, c)) =
      m.classes := by
    rw [List.map_map]
    have hpt : ∀ p ∈ m.classes,
        ((fun c => (c.name, c)) ∘ (fun p => p.2)) p = id p := by
      intro p hp
      obtain ⟨pk, pv⟩ := p
      have hpn : pk = pv.name := h1 (pk, pv) hp
      subst hpn
      rfl
    rw [List.map_congr_left hpt, List.map_id]
  have hvec : dictLookup [(CLASS_OFFSET, serialize_dict m.classes)] CLASS_OFFSET =
      some (serialize_dict m.classes) := by
    simp [dictLookup]
  simp only [ModuleInterface.deserialize, ModuleInterface.serialize, get_root_as,
    List.getElem?_cons_zero, WireRoot.classesVec, hvec,
    deserialize_to_dict, hmap, hpairs, buildDict_ok_of_nodup MErr.duplicateClassError _ h2]
  rfl

/-- Witness for C1 at the concrete `shapeRegistry`. -/
theorem c1_witness :
    ModuleInterface.deserialize (ModuleInterface.serialize shapeRegistry) =
      Except.ok shapeRegistry :=
  c1_round_trip shapeRegistry ⟨by decide, by decide, by decide⟩

/-- Witness for C3 (amended) at the duplicate-name sequence: the later
`Foo` wins and the keys stay duplicate-free. -/
theorem c3_witness :
    dictLookup (ModuleInterface.ofList [fooFirst, fooSecond]).classes "Foo" =
      lastNamed [fooFirst, fooSecond] "Foo" ∧
    (dictKeys (ModuleInterface.ofList [fooFirst, fooSecond]).classes).Nodup :=
  c3_last_duplicate_wins [fooFirst, fooSecond] "Foo"

/-- Witness for C9 at a concrete registry and request. -/
theorem c9_witness :
    (shapeRegistry.callS areaRequest).2 = shapeRegistry ∧
    (shapeRegistry.callS areaRequest).1 = shapeRegistry.call areaRequest ∧
    shapeRegistry.serializeS.2 = shapeRegistry ∧
    shapeRegistry.serializeS.1 = shapeRegistry.serialize :=
  c9_no_mutation shapeRegistry areaRequest
